import Mathlib

/-!
Verification of the hyperion-mcp Tool Registry and Invocation Dispatcher.

Shallow embedding of:
- `src/tools/utils.ts` — `StreamingToolResponse` (the "Framer"): a per-invocation
  wrapper that emits JSON-RPC envelopes to a stream controller;
- `src/registry/toolRegistry.ts` — `InMemoryToolRegistry`;
- `src/registry/index.ts` — `ToolExecutionError` and `executeTool` (the
  "Dispatcher"), including the inline `streamControllerForHandler` shim used
  in streaming mode.

Modelling conventions:
- JSON content values produced by handlers are carried opaquely; content shapes
  the dispatcher constructs itself get their own constructors.
- Wall-clock timestamps (`new Date().toISOString()`), the literal `jsonrpc: "2.0"`
  field and the echoed request id are carried verbatim by the code and play no
  role in any claim; they are elided from envelopes.
- The quoting punctuation inside error-message strings is elided.
- JavaScript exceptions are modelled with `Except`; the thrown shapes the
  dispatcher distinguishes (via `instanceof`) form the `ThrownKind` inductive.
-/

/-- A JSON content value. Handler-produced values are opaque (`raw`); the two
object shapes the dispatcher constructs itself are explicit constructors:
the validation-failure object of the non-streaming ZodError branch, and the
streaming placeholder object with status streaming. -/
inductive Content where
  | raw (s : String)
  | validationFailure (message : String) (details : List (String × String))
  | statusStreaming
deriving DecidableEq, Repr

/-- A scalar JSON parameter value, enough to express schema-conforming and
schema-violating inputs. -/
inductive PValue where
  | str (s : String)
  | num (n : Int)
  | flag (b : Bool)
deriving DecidableEq, Repr

/-- The `parameters : Record<string, any>` argument of a tool invocation. -/
abbrev Params : Type := List (String × PValue)

/-- Response metadata. `send` / `complete` spread caller-supplied metadata and
then override individual fields, so each field the code reads or writes is an
`Option` (absent vs. present), and all other caller-supplied fields (including
the timestamp the code always overrides) are carried verbatim in `rest`. -/
structure Meta where
  partialFlag : Option Bool := none
  finalFlag : Option Bool := none
  isError : Option Bool := none
  rest : List (String × String) := []
deriving DecidableEq, Repr

/-- `MCPToolResponse` from `src/types/mcp.ts`: content plus metadata. -/
structure ToolResponse where
  content : Content
  metadata : Meta := {}
deriving DecidableEq, Repr

/-- One JSON-RPC message written to the output stream: either a result envelope
carrying an `MCPToolResponse` or a JSON-RPC error object (which has a code and
message but no result metadata). -/
inductive Envelope where
  | result (content : Content) (meta : Meta)
  | rpcError (code : Int) (message : String)
deriving DecidableEq, Repr

/-- The output sink behind a stream controller: the ordered list of envelopes
written so far, and whether the stream has been terminated/closed. -/
structure Sink where
  written : List Envelope := []
  closed : Bool := false
deriving DecidableEq, Repr

/-! ## The Framer: `StreamingToolResponse` (src/tools/utils.ts) -/

/-- State of one `StreamingToolResponse`: its `isComplete` flag, whether a
stream controller was supplied at construction, and the controller's sink.
The `jsonRpcId` field is carried verbatim by the code and elided. -/
structure Framer where
  isComplete : Bool := false
  hasController : Bool := true
  out : Sink := {}
deriving DecidableEq, Repr

namespace Framer

/-- `StreamingToolResponse.send(content, metadata?)`: no-op (with a console
warning) when complete or controller-less; otherwise enqueues a result envelope
whose metadata is the caller metadata with `partial` overridden to true (and the
timestamp overridden; `final` is not touched). -/
def send (f : Framer) (content : Content) (m : Meta) : Framer :=
  if f.isComplete || !f.hasController then f
  else
    { f with
      out := { f.out with
        written := f.out.written ++ [.result content { m with partialFlag := some true }] } }

/-- `StreamingToolResponse.complete(finalContent, metadata?)`: no-op when
complete or controller-less; otherwise sets `isComplete`, enqueues a result
envelope with `partial` overridden to false and `final` to true, and
terminates the controller. -/
def complete (f : Framer) (content : Content) (m : Meta) : Framer :=
  if f.isComplete || !f.hasController then f
  else
    { f with
      isComplete := true
      out :=
        { written := f.out.written ++
            [.result content { m with partialFlag := some false, finalFlag := some true }]
          closed := true } }

/-- `StreamingToolResponse.error(error)`: no-op when complete or
controller-less; otherwise sets `isComplete`, enqueues a JSON-RPC error object
with code -32000 and the error message — and no result metadata — and
terminates the controller. -/
def error (f : Framer) (msg : String) : Framer :=
  if f.isComplete || !f.hasController then f
  else
    { f with
      isComplete := true
      out :=
        { written := f.out.written ++ [.rpcError (-32000) msg]
          closed := true } }

end Framer

/-- One call a handler makes on its `StreamingToolResponse`. -/
inductive FramerOp where
  | send (content : Content) (m : Meta)
  | complete (content : Content) (m : Meta)
  | error (msg : String)
deriving DecidableEq, Repr

/-- Apply one Framer call. -/
def FramerOp.apply (op : FramerOp) (f : Framer) : Framer :=
  match op with
  | .send c m => f.send c m
  | .complete c m => f.complete c m
  | .error msg => f.error msg

/-- Run a sequence of Framer calls in order. -/
def runFramerOps : Framer → List FramerOp → Framer
  | f, [] => f
  | f, op :: rest => runFramerOps (op.apply f) rest

/-- A freshly constructed `StreamingToolResponse` with a controller attached. -/
def freshFramer : Framer := {}

/-- Does an envelope carry result metadata with `final = true`? A JSON-RPC
error object carries no result metadata at all. -/
def envIsFinal (e : Envelope) : Bool :=
  match e with
  | .result _ m => m.finalFlag == some true
  | .rpcError _ _ => false

/-- Number of envelopes in a trace whose metadata has `final = true`. -/
def finalCount (l : List Envelope) : Nat :=
  (l.filter envIsFinal).length

/-- The property claimed of a full invocation trace: exactly one envelope has
`final = true` and it is the last envelope emitted. -/
def exactlyOneFinalLast (l : List Envelope) : Bool :=
  finalCount l == 1 &&
    (match l.getLast? with
     | some e => envIsFinal e
     | none => false)

/-! ## The streaming shim: `streamControllerForHandler` (src/registry/index.ts) -/

/-- The inline controller object `executeTool` builds around the writer in
streaming mode: a `_closed` guard plus the underlying writer's sink. -/
structure Shim where
  closedFlag : Bool := false
  sink : Sink := {}
deriving DecidableEq, Repr

namespace Shim

/-- `streamControllerForHandler.enqueue(chunk)`: returns immediately when
`_closed`; otherwise writes the chunk to the writer. (A failed write marks the
shim closed; the sink is modelled as reliable.) -/
def enqueue (s : Shim) (e : Envelope) : Shim :=
  if s.closedFlag then s
  else { s with sink := { s.sink with written := s.sink.written ++ [e] } }

/-- `streamControllerForHandler.error(err)`: returns when `_closed`; otherwise
sets `_closed`, writes a JSON-RPC error object with code -32000 and the error
message, then closes the writer. -/
def error (s : Shim) (msg : String) : Shim :=
  if s.closedFlag then s
  else
    { closedFlag := true
      sink :=
        { written := s.sink.written ++ [.rpcError (-32000) msg]
          closed := true } }

/-- `streamControllerForHandler.terminate()`: returns when `_closed`; otherwise
sets `_closed` and closes the writer. -/
def terminate (s : Shim) : Shim :=
  if s.closedFlag then s
  else { s with closedFlag := true, sink := { s.sink with closed := true } }

end Shim

/-- One call a stream-aware handler makes on the shim it receives. -/
inductive ShimOp where
  | enqueue (e : Envelope)
  | error (msg : String)
  | terminate
deriving DecidableEq, Repr

/-- Apply one shim call. -/
def ShimOp.apply (op : ShimOp) (s : Shim) : Shim :=
  match op with
  | .enqueue e => s.enqueue e
  | .error msg => s.error msg
  | .terminate => s.terminate

/-- Run the calls a handler makes on the shim, in order. -/
def runShimOps : Shim → List ShimOp → Shim
  | s, [] => s
  | s, op :: rest => runShimOps (op.apply s) rest

/-! ## The registry: `InMemoryToolRegistry` (src/registry/toolRegistry.ts) -/

/-- `PermissionLevel` from `src/utils/auth.ts`: public < protected < admin. -/
inductive PermissionLevel where
  | publicLvl
  | protectedLvl
  | adminLvl
deriving DecidableEq, Repr

/-- How a call to a stream-aware handler ends: a normal return, a synchronous
throw, or an asynchronous rejection of the promise it returned (the last two
are distinguishable to a caller that does not await the call). -/
inductive Ending where
  | returns
  | syncThrow
  | asyncReject
deriving DecidableEq, Repr

/-- The thrown shapes the dispatcher's catch blocks distinguish via
`instanceof`: a `ToolExecutionError` (carrying its `content` payload), a Zod
validation error (carrying its field-path/message pairs), or any other
exception (carrying its message). -/
inductive ThrownKind where
  | toolExecution (content : Content)
  | zod (details : List (String × String))
  | generic (msg : String)
deriving DecidableEq, Repr

/-- A registered handler function. A JavaScript function has one body whose
behaviour depends on whether a controller argument is supplied; `arity` is the
declared parameter count (`handler.length`), `callUnary` the behaviour when
invoked with parameters only, and `callWithShim` the calls it makes on the
shim plus how the call ends when invoked with a controller. -/
structure Handler where
  arity : Nat
  callUnary : Params → Except ThrownKind ToolResponse
  callWithShim : Params → List ShimOp × Ending

/-- `ToolRegistrationOptions` from `src/types/mcp.ts` as passed to
`register`: optional fields are `Option`, `parameters` is the declared JSON
schema carried opaquely. -/
structure ToolRegistrationOptions where
  name : String
  description : String
  parameters : Content
  handler : Handler
  permissionLevel : Option PermissionLevel := none
  category : Option String := none
  tags : List String := []
  enabled : Option Bool := none

/-- A stored registry entry: the registration options after `register`
normalises them (`enabled = options.enabled !== false`,
`permissionLevel = options.permissionLevel || "public"`). -/
structure StoredTool where
  name : String
  description : String
  parameters : Content
  handler : Handler
  permissionLevel : PermissionLevel
  category : Option String
  tags : List String
  enabled : Bool

/-- The registry's `Map<string, ...>`, as an insertion-ordered association
list keyed by tool name (`register` rejects duplicate keys). -/
abbrev Registry : Type := List (String × StoredTool)

/-- `MCPTool`: the handler-less tool definition the lookup and enumeration
methods project out of a stored entry. -/
structure MCPTool where
  name : String
  description : String
  parameters : Content
  permissionLevel : PermissionLevel
  category : Option String
  tags : List String
deriving DecidableEq, Repr

/-- The `MCPTool` projection of a stored entry, with the
`tool.permissionLevel || "public"` re-default the enumeration methods apply
(vacuous, since `register` already stores a defaulted level). -/
def StoredTool.toMCPTool (t : StoredTool) : MCPTool :=
  { name := t.name
    description := t.description
    parameters := t.parameters
    permissionLevel := t.permissionLevel
    category := t.category
    tags := t.tags }

namespace Registry

/-- `InMemoryToolRegistry.register(options)`: throws when the name is already
present (leaving the map untouched); otherwise stores the options with
`enabled` defaulted to true unless explicitly false and `permissionLevel`
defaulted to public. Returns the (possibly updated) map and the thrown
message, if any. -/
def register (reg : Registry) (o : ToolRegistrationOptions) :
    Registry × Option String :=
  if (reg.lookup o.name).isSome then
    (reg, some ("Tool with name " ++ o.name ++ " is already registered"))
  else
    (reg ++ [(o.name,
      { name := o.name
        description := o.description
        parameters := o.parameters
        handler := o.handler
        permissionLevel := o.permissionLevel.getD .publicLvl
        category := o.category
        tags := o.tags
        enabled := o.enabled.getD true })], none)

/-- `InMemoryToolRegistry.unregister(name)`: `Map.delete` — removes the entry
if present and reports whether it existed (enabled or not). -/
def unregister (reg : Registry) (name : String) : Bool × Registry :=
  ((reg.lookup name).isSome, reg.filter (fun e => !(e.1 == name)))

/-- `InMemoryToolRegistry.getToolHandler(name)`: the handler only when the
entry exists and is enabled. -/
def getToolHandler (reg : Registry) (name : String) : Option Handler :=
  match reg.lookup name with
  | some t => if t.enabled then some t.handler else none
  | none => none

/-- `InMemoryToolRegistry.getToolDefinition(name)`: the `MCPTool` projection
only when the entry exists and is enabled. -/
def getToolDefinition (reg : Registry) (name : String) : Option MCPTool :=
  match reg.lookup name with
  | some t => if t.enabled then some t.toMCPTool else none
  | none => none

/-- `InMemoryToolRegistry.isToolRegistered(name)`: present and enabled. -/
def isToolRegistered (reg : Registry) (name : String) : Bool :=
  match reg.lookup name with
  | some t => t.enabled
  | none => false

/-- `InMemoryToolRegistry.enableTool(name)`: false if absent; otherwise sets
`enabled := true` in place and returns true. -/
def enableTool (reg : Registry) (name : String) : Bool × Registry :=
  if (reg.lookup name).isSome then
    (true, reg.map (fun e => if e.1 = name then (e.1, { e.2 with enabled := true }) else e))
  else (false, reg)

/-- `InMemoryToolRegistry.disableTool(name)`: false if absent; otherwise sets
`enabled := false` in place and returns true. -/
def disableTool (reg : Registry) (name : String) : Bool × Registry :=
  if (reg.lookup name).isSome then
    (true, reg.map (fun e => if e.1 = name then (e.1, { e.2 with enabled := false }) else e))
  else (false, reg)

/-- `InMemoryToolRegistry.getAllTools()`: the projections of all enabled
entries, in map order. -/
def getAllTools (reg : Registry) : List MCPTool :=
  (reg.filter (fun e => e.2.enabled)).map (fun e => e.2.toMCPTool)

/-- `InMemoryToolRegistry.getToolsByPermission(level)`: the projections of the
enabled entries whose (defaulted) permission level equals `level` exactly. -/
def getToolsByPermission (reg : Registry) (level : PermissionLevel) : List MCPTool :=
  (reg.filter (fun e => e.2.enabled && e.2.permissionLevel == level)).map
    (fun e => e.2.toMCPTool)

end Registry

/-! ## The dispatcher: `executeTool` (src/registry/index.ts) -/

/-- The error message of the generic internal error the dispatcher sends when
setting up the streaming handler throws synchronously. -/
def internalInitMsg : String := "Internal server error initiating stream."

/-- The content object the non-streaming ZodError branch builds:
a message naming the tool plus the mapped field errors. -/
def zodFailureContent (name : String) (details : List (String × String)) : Content :=
  .validationFailure ("Validation failed for tool " ++ name) details

/-- The non-streaming branch of `executeTool`: await the handler; map a thrown
`ToolExecutionError` to a success response carrying the error content with
`isError: true`; map a thrown `ZodError` to a success response carrying the
validation-failure object with `isError: true`; rethrow anything else. -/
def runNonStreaming (name : String) (h : Handler) (p : Params) :
    Except String ToolResponse :=
  match h.callUnary p with
  | .ok r => .ok r
  | .error (.toolExecution c) => .ok { content := c, metadata := { isError := some true } }
  | .error (.zod details) =>
      .ok { content := zodFailureContent name details, metadata := { isError := some true } }
  | .error (.generic msg) => .error msg

/-- The async IIFE of `executeTool`'s streaming branch, as its net effect on a
fresh shim. A handler with declared arity above 1 (stream-aware, with or
without the extra id parameter) is called with the shim and NOT awaited, so
only a synchronous throw reaches the catch block, which then sends a generic
internal error through the shim; a normal return or an asynchronous rejection
is not observed. A handler with arity at most 1 is awaited, its result wrapped
in a single envelope with `partial: false, final: true` over its own metadata,
and the shim terminated; its rejection reaches the catch block. -/
def runStreaming (h : Handler) (p : Params) : Shim :=
  let shim0 : Shim := {}
  if h.arity > 1 then
    let (ops, ending) := h.callWithShim p
    let s1 := runShimOps shim0 ops
    match ending with
    | .syncThrow => s1.error internalInitMsg
    | .returns => s1
    | .asyncReject => s1
  else
    match h.callUnary p with
    | .ok r =>
        (shim0.enqueue
          (.result r.content
            { r.metadata with partialFlag := some false, finalFlag := some true })).terminate
    | .error _ => shim0.error internalInitMsg

/-- The placeholder response the streaming branch returns to its caller. -/
def streamingPlaceholder : ToolResponse :=
  { content := .statusStreaming, metadata := { partialFlag := some true } }

/-- Outcome of one `executeTool` call: the not-found throw, a non-streaming
result (or propagated throw), or a streaming kickoff with the sink state the
IIFE leaves behind and the placeholder returned to the caller. -/
inductive ExecOutcome where
  | notFound (msg : String)
  | unaryResult (r : Except String ToolResponse)
  | streamed (sink : Sink) (placeholder : ToolResponse)

/-- One `executeTool` call's outcome, instrumented with the number of times
the resolved handler's body was entered (each branch of the source contains
exactly one `handler(...)` call site, executed once). -/
structure ExecResult where
  outcome : ExecOutcome
  handlerCalls : Nat

/-- `executeTool(name, parameters, writer?, encoder?, ...)`: resolve via
`getToolHandler` (throwing when absent or disabled), then run the streaming
branch when a writer and encoder were supplied and the non-streaming branch
otherwise. -/
def executeTool (reg : Registry) (name : String) (p : Params) (streaming : Bool) :
    ExecResult :=
  match Registry.getToolHandler reg name with
  | none =>
      { outcome := .notFound ("Tool " ++ name ++ " not found or disabled")
        handlerCalls := 0 }
  | some h =>
      if streaming then
        { outcome := .streamed (runStreaming h p).sink streamingPlaceholder
          handlerCalls := 1 }
      else
        { outcome := .unaryResult (runNonStreaming name h p)
          handlerCalls := 1 }

/-! ## Claim-support definitions -/

/-- Is a Framer call a terminating one (`complete` or `error`)? -/
def FramerOp.isTerminal (op : FramerOp) : Bool :=
  match op with
  | .send _ _ => false
  | .complete _ _ => true
  | .error _ => true

/-- Is a Framer call a `send` whose caller metadata does not set `final` to
true (so the only `final = true` metadata in a trace comes from `complete`)? -/
def FramerOp.isSendNoFinal (op : FramerOp) : Bool :=
  match op with
  | .send _ m => !(m.finalFlag == some true)
  | _ => false

/-- The envelopes a single Framer or shim call added to a sink. -/
def emittedBy (before after : Sink) : List Envelope :=
  after.written.drop before.written.length

/-- Does an envelope carry result metadata with exactly `partial = true` and
`final = false`, as the spec describes `send` output? -/
def envPartialTrueFinalFalse (e : Envelope) : Bool :=
  match e with
  | .result _ m => m.partialFlag == some true && m.finalFlag == some false
  | .rpcError _ _ => false

/-- The property C9 states of one `send` call on a Framer: every envelope the
call emits carries `partial: true` and `final: false`. -/
abbrev sendClaimC9 (f : Framer) (c : Content) (m : Meta) : Prop :=
  ∀ e ∈ emittedBy f.out (f.send c m).out, envPartialTrueFinalFalse e = true

/-- Does the last envelope written to a sink terminate the invocation (a
result with `final = true`, or a JSON-RPC error object)? -/
def sinkHasTerminal (s : Sink) : Bool :=
  match s.written.getLast? with
  | some (.result _ m) => m.finalFlag == some true
  | some (.rpcError _ _) => true
  | none => false

/-- The sink of a streaming outcome, when there is one. -/
def streamedSinkOf (r : ExecResult) : Option Sink :=
  match r.outcome with
  | .streamed s _ => some s
  | _ => none

/-- A unary handler that always succeeds with fixed content; used to build
concrete registries. -/
def okHandler : Handler :=
  { arity := 1
    callUnary := fun _ => .ok { content := .raw "ok" }
    callWithShim := fun _ => ([], .returns) }

/-- A stored registry entry around a given handler, enabled, public level. -/
def mkStored (name : String) (h : Handler) : StoredTool :=
  { name := name
    description := "a tool"
    parameters := .raw "schema"
    handler := h
    permissionLevel := .publicLvl
    category := none
    tags := []
    enabled := true }

/-- The declared parameter schema of the `echo_text` fixture: an object with a
required string field `text` (mirrors a `z.object` with a required string). -/
def echoSchemaAccepts (p : Params) : Bool :=
  match p.lookup "text" with
  | some (.str _) => true
  | _ => false

/-- The `echo_text` fixture handler: parses its parameters against the schema
the way a handler body using `schema.parse` does — throwing a `ZodError` on
violation — and echoes the text on success. -/
def echoTextHandler : Handler :=
  { arity := 1
    callUnary := fun p =>
      match p.lookup "text" with
      | some (.str s) => .ok { content := .raw s }
      | _ => .error (.zod [("text", "Required string")])
    callWithShim := fun _ => ([], .returns) }

/-- A registry holding the `echo_text` fixture. -/
def regEchoText : Registry := [("echo_text", mkStored "echo_text" echoTextHandler)]

/-- Parameters violating the `echo_text` schema: `text` is a number. -/
def badEchoParams : Params := [("text", .num 5)]

/-- A stream-aware fixture handler (declared arity 2) that makes no calls on
its shim and returns normally. -/
def quietStreamHandler : Handler :=
  { arity := 2
    callUnary := fun _ => .ok { content := .raw "unused" }
    callWithShim := fun _ => ([], .returns) }

/-- A registry holding the quiet stream-aware fixture. -/
def regQuiet : Registry := [("quiet", mkStored "quiet" quietStreamHandler)]

/-- A stored entry with a given permission level. -/
def mkStoredAt (name : String) (lvl : PermissionLevel) : StoredTool :=
  { mkStored name okHandler with permissionLevel := lvl }

/-- A registry with one enabled tool at each permission level. -/
def regPerm : Registry :=
  [("adm", mkStoredAt "adm" .adminLvl),
   ("prot", mkStoredAt "prot" .protectedLvl),
   ("pub", mkStoredAt "pub" .publicLvl)]

/-- A handler that throws a `ToolExecutionError` carrying a payload. -/
def bizFailHandler : Handler :=
  { arity := 1
    callUnary := fun _ => .error (.toolExecution (.raw "task not found"))
    callWithShim := fun _ => ([], .returns) }

/-- A handler that throws a plain, unclassified error. -/
def genFailHandler : Handler :=
  { arity := 1
    callUnary := fun _ => .error (.generic "boom")
    callWithShim := fun _ => ([], .returns) }

/-- A registry holding the `ToolExecutionError`-throwing fixture. -/
def regBizFail : Registry := [("fail_biz", mkStored "fail_biz" bizFailHandler)]

/-- A registry holding the unclassified-throwing fixture. -/
def regGenFail : Registry := [("fail_gen", mkStored "fail_gen" genFailHandler)]

/-- A stream-aware fixture handler that enqueues one partial envelope and then
throws synchronously. -/
def throwingStreamHandler : Handler :=
  { arity := 2
    callUnary := fun _ => .ok { content := .raw "unused" }
    callWithShim := fun _ =>
      ([ShimOp.enqueue (.result (.raw "p1") { partialFlag := some true })], .syncThrow) }

/-- A registry holding the synchronously-throwing stream-aware fixture. -/
def regThrowStream : Registry :=
  [("throwy", mkStored "throwy" throwingStreamHandler)]

/-! ## Shared lemmas about the Framer -/

theorem FramerOp.apply_of_isComplete (op : FramerOp) (f : Framer)
    (h : f.isComplete = true) : op.apply f = f := by
  cases op <;> simp [FramerOp.apply, Framer.send, Framer.complete, Framer.error, h]

theorem runFramerOps_of_isComplete (f : Framer) (ops : List FramerOp)
    (h : f.isComplete = true) : runFramerOps f ops = f := by
  induction ops with
  | nil => rfl
  | cons op rest ih =>
      rw [runFramerOps, FramerOp.apply_of_isComplete op f h]
      exact ih

theorem runFramerOps_append (f : Framer) (l₁ l₂ : List FramerOp) :
    runFramerOps f (l₁ ++ l₂) = runFramerOps (runFramerOps f l₁) l₂ := by
  induction l₁ generalizing f with
  | nil => rfl
  | cons op rest ih =>
      rw [List.cons_append, runFramerOps, runFramerOps]
      exact ih _

theorem runFramerOps_sends (pre : List FramerOp) :
    ∀ f : Framer, (∀ op ∈ pre, op.isSendNoFinal = true) → f.isComplete = false →
      f.hasController = true →
      (runFramerOps f pre).isComplete = false ∧
      (runFramerOps f pre).hasController = true ∧
      ∀ e ∈ (runFramerOps f pre).out.written, e ∈ f.out.written ∨ envIsFinal e = false := by
  induction pre with
  | nil =>
      intro f _ hf hc
      exact ⟨hf, hc, fun e he => Or.inl he⟩
  | cons op rest ih =>
      intro f hpre hf hc
      obtain ⟨c, m, rfl⟩ : ∃ c m, op = FramerOp.send c m := by
        cases op with
        | send c m => exact ⟨c, m, rfl⟩
        | complete c m =>
            exact absurd (hpre _ (List.mem_cons_self _ _)) (by simp [FramerOp.isSendNoFinal])
        | error msg =>
            exact absurd (hpre _ (List.mem_cons_self _ _)) (by simp [FramerOp.isSendNoFinal])
      have hm : (m.finalFlag == some true) = false := by
        have h := hpre _ (List.mem_cons_self _ _)
        simpa [FramerOp.isSendNoFinal] using h
      have happ : (FramerOp.send c m).apply f =
          { f with out := { f.out with
              written := f.out.written ++ [.result c { m with partialFlag := some true }] } } := by
        simp [FramerOp.apply, Framer.send, hf, hc]
      rw [runFramerOps, happ]
      obtain ⟨h1, h2, h3⟩ :=
        ih { f with out := { f.out with
              written := f.out.written ++ [.result c { m with partialFlag := some true }] } }
          (fun o ho => hpre o (List.mem_cons_of_mem _ ho)) hf hc
      refine ⟨h1, h2, fun e he => ?_⟩
      rcases h3 e he with hmem | hfin
      · rcases List.mem_append.mp hmem with h | h
        · exact Or.inl h
        · right
          have he' : e = Envelope.result c { m with partialFlag := some true } := by
            simpa using h
          subst he'
          simp [envIsFinal, hm]
      · exact Or.inr hfin

theorem finalCount_append (a b : List Envelope) :
    finalCount (a ++ b) = finalCount a + finalCount b := by
  simp [finalCount, List.filter_append]

theorem finalCount_eq_zero (l : List Envelope) (h : ∀ e ∈ l, envIsFinal e = false) :
    finalCount l = 0 := by
  simp only [finalCount, List.length_eq_zero]
  exact List.filter_eq_nil_iff.mpr (fun e he => by simp [h e he])

/-! ## C7: the Framer is a two-state machine with CLOSED terminal -/

/-- C7: the Framer is a two-state machine OPEN → CLOSED with CLOSED terminal:
after a `complete()` or `error()` call on a Framer with a controller, the
`isComplete` flag is set, and every subsequent `send`, `complete` or `error`
call leaves the Framer (its state and its emitted envelopes) entirely
unchanged, raising nothing. -/
theorem framer_closed_is_terminal (f : Framer) (t op : FramerOp)
    (hc : f.hasController = true) (ht : t.isTerminal = true) :
    (t.apply f).isComplete = true ∧ op.apply (t.apply f) = t.apply f := by
  have h1 : (t.apply f).isComplete = true := by
    cases t with
    | send c m => simp [FramerOp.isTerminal] at ht
    | complete c m =>
        by_cases h : f.isComplete = true
        · simp [FramerOp.apply, Framer.complete, h]
        · simp only [Bool.not_eq_true] at h
          simp [FramerOp.apply, Framer.complete, h, hc]
    | error msg =>
        by_cases h : f.isComplete = true
        · simp [FramerOp.apply, Framer.error, h]
        · simp only [Bool.not_eq_true] at h
          simp [FramerOp.apply, Framer.error, h, hc]
  exact ⟨h1, FramerOp.apply_of_isComplete op _ h1⟩

/-- Witness for C7 at a concrete input: completing a fresh Framer closes it,
and a late `send` is a no-op. -/
theorem framer_closed_is_terminal_witness :
    ((FramerOp.complete (.raw "done") {}).apply freshFramer).isComplete = true ∧
    (FramerOp.send (.raw "late") {}).apply
        ((FramerOp.complete (.raw "done") {}).apply freshFramer) =
      (FramerOp.complete (.raw "done") {}).apply freshFramer :=
  framer_closed_is_terminal freshFramer (FramerOp.complete (.raw "done") {})
    (FramerOp.send (.raw "late") {}) rfl rfl

/-! ## C9: metadata of partial envelopes emitted by send -/

/-- C9 counterexample: on an OPEN Framer with a controller, a plain `send`
(no caller metadata) emits an envelope whose metadata carries `partial: true`
but NO `final` field at all — `final` is absent, not `false` — so the claim
that every partial envelope carries `final: false` is false. -/
theorem framer_send_counterexample : ¬ sendClaimC9 freshFramer (.raw "x") {} := by
  decide

/-- C9 amended: every envelope emitted by `send()` while OPEN carries
`partial: true`, and its `final` field is exactly whatever the caller-supplied
metadata contains (absent by default) — `send` does not set it. -/
theorem framer_send_spec (f : Framer) (c : Content) (m : Meta)
    (hf : f.isComplete = false) (hc : f.hasController = true) :
    emittedBy f.out (f.send c m).out = [.result c { m with partialFlag := some true }] := by
  simp [emittedBy, Framer.send, hf, hc]

/-- Witness for the amended C9 at a concrete input. -/
theorem framer_send_spec_witness :
    emittedBy freshFramer.out (freshFramer.send (.raw "x") {}).out =
      [.result (.raw "x") { partialFlag := some true }] :=
  framer_send_spec freshFramer (.raw "x") {} rfl rfl

/-! ## C1: exactly one final envelope per invocation -/

/-- C1 counterexample: an invocation that terminates through the Framer's
`error()` path emits a JSON-RPC error object that carries no result metadata,
so its trace contains NO envelope with `final = true` (rather than exactly
one): the claimed invariant fails on the error path it includes. -/
theorem framer_final_counterexample :
    exactlyOneFinalLast (runFramerOps freshFramer [FramerOp.error "boom"]).out.written = false
      ∧ finalCount (runFramerOps freshFramer [FramerOp.error "boom"]).out.written = 0 := by
  decide

/-- C1 amended: for an invocation whose handler never passes `final: true` in
caller metadata to `send`, a trace terminating via `complete()` contains
exactly one envelope with `final = true` and it is the last envelope emitted
(later calls are no-ops); a trace terminating via `error()` contains no
envelope with `final = true`, and its last envelope is the terminal JSON-RPC
error object (nothing is emitted after it). -/
theorem framer_terminal_discipline (pre : List FramerOp)
    (hpre : ∀ op ∈ pre, op.isSendNoFinal = true)
    (c : Content) (m : Meta) (msg : String) (post : List FramerOp) :
    exactlyOneFinalLast
        (runFramerOps freshFramer (pre ++ FramerOp.complete c m :: post)).out.written = true ∧
    finalCount (runFramerOps freshFramer (pre ++ FramerOp.error msg :: post)).out.written = 0 ∧
    (runFramerOps freshFramer (pre ++ FramerOp.error msg :: post)).out.written.getLast? =
      some (.rpcError (-32000) msg) := by
  obtain ⟨h1, h2, h3⟩ := runFramerOps_sends pre freshFramer hpre rfl rfl
  set g := runFramerOps freshFramer pre with hg
  have hW : ∀ e ∈ g.out.written, envIsFinal e = false := by
    intro e he
    rcases h3 e he with hmem | hfin
    · simp [freshFramer] at hmem
    · exact hfin
  have hWcount : finalCount g.out.written = 0 := finalCount_eq_zero _ hW
  constructor
  · rw [runFramerOps_append, ← hg, runFramerOps]
    have happ : (FramerOp.complete c m).apply g =
        { g with
          isComplete := true
          out :=
            { written := g.out.written ++
                [.result c { m with partialFlag := some false, finalFlag := some true }]
              closed := true } } := by
      simp [FramerOp.apply, Framer.complete, h1, h2]
    rw [happ, runFramerOps_of_isComplete _ _ rfl]
    simp only [exactlyOneFinalLast]
    rw [finalCount_append, hWcount, List.getLast?_concat]
    simp [finalCount, envIsFinal]
  · rw [runFramerOps_append, ← hg, runFramerOps]
    have happ : (FramerOp.error msg).apply g =
        { g with
          isComplete := true
          out :=
            { written := g.out.written ++ [.rpcError (-32000) msg]
              closed := true } } := by
      simp [FramerOp.apply, Framer.error, h1, h2]
    rw [happ, runFramerOps_of_isComplete _ _ rfl]
    refine ⟨?_, ?_⟩
    · rw [finalCount_append, hWcount]
      simp [finalCount, envIsFinal]
    · exact List.getLast?_concat _

/-- Witness for the amended C1 at a concrete input: one partial `send`, then
`complete` (resp. `error`), then a late `send` that is swallowed. -/
theorem framer_terminal_discipline_witness :
    exactlyOneFinalLast
        (runFramerOps freshFramer
          ([FramerOp.send (.raw "a") {}] ++
            FramerOp.complete (.raw "d") {} :: [FramerOp.send (.raw "late") {}])).out.written
      = true ∧
    finalCount
        (runFramerOps freshFramer
          ([FramerOp.send (.raw "a") {}] ++
            FramerOp.error "boom" :: [FramerOp.send (.raw "late") {}])).out.written = 0 ∧
    (runFramerOps freshFramer
          ([FramerOp.send (.raw "a") {}] ++
            FramerOp.error "boom" :: [FramerOp.send (.raw "late") {}])).out.written.getLast? =
      some (.rpcError (-32000) "boom") :=
  framer_terminal_discipline [FramerOp.send (.raw "a") {}] (by decide)
    (.raw "d") {} "boom" [FramerOp.send (.raw "late") {}]

/-! ## Shared lemmas about the registry map -/

theorem lookup_map_update (l : List (String × StoredTool)) (name : String)
    (f : StoredTool → StoredTool) (t : StoredTool) (h : l.lookup name = some t) :
    (l.map (fun e => if e.1 = name then (e.1, f e.2) else e)).lookup name = some (f t) := by
  induction l with
  | nil => simp [List.lookup] at h
  | cons hd tl ih =>
      obtain ⟨k, v⟩ := hd
      simp only [List.map_cons]
      by_cases hk : k = name
      · subst hk
        rw [if_pos rfl]
        simp only [List.lookup, beq_self_eq_true] at h ⊢
        injection h with hv
        subst hv
        rfl
      · rw [if_neg hk]
        have hbeq : (name == k) = false := beq_eq_false_iff_ne.mpr (Ne.symm hk)
        simp only [List.lookup, hbeq] at h ⊢
        exact ih h

theorem lookup_append_of_none (l₁ l₂ : List (String × StoredTool)) (a : String)
    (h : l₁.lookup a = none) : (l₁ ++ l₂).lookup a = l₂.lookup a := by
  induction l₁ with
  | nil => rfl
  | cons hd tl ih =>
      obtain ⟨k, v⟩ := hd
      by_cases hk : a = k
      · subst hk
        simp [List.lookup] at h
      · have hbeq : (a == k) = false := beq_eq_false_iff_ne.mpr hk
        simp only [List.lookup, hbeq] at h
        simp only [List.cons_append, List.lookup, hbeq]
        exact ih h

/-! ## C6: duplicate registration is rejected and changes nothing -/

/-- C6: when a name is already present in the registry, a second `register`
call with that name fails with the duplicate-name error and returns the map
unchanged, so the first entry — handler, description, parameters, permission
level and enabled flag — is retained exactly as it was. -/
theorem register_duplicate_rejected (reg : Registry) (o : ToolRegistrationOptions)
    (h : (reg.lookup o.name).isSome = true) :
    Registry.register reg o =
      (reg, some ("Tool with name " ++ o.name ++ " is already registered")) := by
  simp [Registry.register, h]

/-- Witness for C6: re-registering the `echo_text` name with different fields
is rejected and the registry value is returned untouched. -/
theorem register_duplicate_rejected_witness :
    Registry.register regEchoText
        { name := "echo_text", description := "dup", parameters := .raw "schema2",
          handler := okHandler } =
      (regEchoText, some ("Tool with name " ++ "echo_text" ++ " is already registered")) :=
  register_duplicate_rejected regEchoText
    { name := "echo_text", description := "dup", parameters := .raw "schema2",
      handler := okHandler } rfl

/-! ## C5: lookup, disable, and unregister semantics -/

/-- C5: for a registered and enabled name, `getToolHandler` returns its
handler; a never-registered name gives `none` from both `getToolHandler` and
`getToolDefinition`; after `disableTool`, `getToolHandler` and
`getToolDefinition` on the disabled name also give `none` — indistinguishable
from the never-registered name — while `unregister` on it still returns true
(the entry still exists). -/
theorem lookup_disable_semantics (reg : Registry) (name missing : String) (t : StoredTool)
    (h : reg.lookup name = some t) (henabled : t.enabled = true)
    (hmissing : reg.lookup missing = none) :
    Registry.getToolHandler reg name = some t.handler ∧
    Registry.getToolHandler reg missing = none ∧
    Registry.getToolDefinition reg missing = none ∧
    Registry.getToolHandler (Registry.disableTool reg name).2 name = none ∧
    Registry.getToolDefinition (Registry.disableTool reg name).2 name = none ∧
    (Registry.unregister (Registry.disableTool reg name).2 name).1 = true := by
  have hdis : (Registry.disableTool reg name).2 =
      reg.map (fun e => if e.1 = name then (e.1, { e.2 with enabled := false }) else e) := by
    simp [Registry.disableTool, h]
  have hlook : ((Registry.disableTool reg name).2).lookup name =
      some { t with enabled := false } := by
    rw [hdis]
    exact lookup_map_update reg name (fun s => { s with enabled := false }) t h
  refine ⟨?_, ?_, ?_, ?_, ?_, ?_⟩
  · simp [Registry.getToolHandler, h, henabled]
  · simp [Registry.getToolHandler, hmissing]
  · simp [Registry.getToolDefinition, hmissing]
  · simp [Registry.getToolHandler, hlook]
  · simp [Registry.getToolDefinition, hlook]
  · simp [Registry.unregister, hlook]

/-- Witness for C5 at a concrete registry: the enabled `echo_text` tool versus
the never-registered name `ghost`. -/
theorem lookup_disable_semantics_witness :
    Registry.getToolHandler regEchoText "echo_text" =
      some (mkStored "echo_text" echoTextHandler).handler ∧
    Registry.getToolHandler regEchoText "ghost" = none ∧
    Registry.getToolDefinition regEchoText "ghost" = none ∧
    Registry.getToolHandler (Registry.disableTool regEchoText "echo_text").2 "echo_text" = none ∧
    Registry.getToolDefinition (Registry.disableTool regEchoText "echo_text").2 "echo_text" = none ∧
    (Registry.unregister (Registry.disableTool regEchoText "echo_text").2 "echo_text").1 = true :=
  lookup_disable_semantics regEchoText "echo_text" "ghost"
    (mkStored "echo_text" echoTextHandler) rfl rfl rfl

/-! ## C10: getToolsByPermission filters by exact level -/

/-- C10: `getToolsByPermission` returns exactly the projections of the enabled
entries whose stored permission level equals the queried level (an exact-match
filter, so querying one level never includes another), and an entry registered
without a permission level is stored with level public. -/
theorem getToolsByPermission_spec (reg : Registry) (level : PermissionLevel) (t : MCPTool)
    (o : ToolRegistrationOptions) (hnone : o.permissionLevel = none)
    (hfree : reg.lookup o.name = none) :
    (t ∈ Registry.getToolsByPermission reg level ↔
      ∃ p ∈ reg, p.2.enabled = true ∧ p.2.permissionLevel = level ∧ t = p.2.toMCPTool) ∧
    ((Registry.register reg o).1).lookup o.name =
      some { name := o.name, description := o.description, parameters := o.parameters,
             handler := o.handler, permissionLevel := .publicLvl, category := o.category,
             tags := o.tags, enabled := o.enabled.getD true } := by
  constructor
  · constructor
    · intro ht
      obtain ⟨p, hp, hfp⟩ := List.mem_map.mp ht
      obtain ⟨hmem, hq⟩ := List.mem_filter.mp hp
      simp only [Bool.and_eq_true, beq_iff_eq] at hq
      exact ⟨p, hmem, hq.1, hq.2, hfp.symm⟩
    · rintro ⟨p, hmem, he, hl, ht⟩
      exact List.mem_map.mpr ⟨p, List.mem_filter.mpr ⟨hmem, by simp [he, hl]⟩, ht.symm⟩
  · have hcond : (reg.lookup o.name).isSome = false := by rw [hfree]; rfl
    simp only [Registry.register, hcond, Bool.false_eq_true, if_false]
    rw [lookup_append_of_none _ _ _ hfree]
    simp [List.lookup, hnone]

/-- Witness for C10 at a concrete registry with one enabled tool per level:
querying admin returns exactly the admin tool, and registering a fresh name
without a permission level stores it as public. -/
theorem getToolsByPermission_spec_witness :
    ((mkStoredAt "adm" .adminLvl).toMCPTool ∈ Registry.getToolsByPermission regPerm .adminLvl ↔
      ∃ p ∈ regPerm, p.2.enabled = true ∧ p.2.permissionLevel = .adminLvl ∧
        (mkStoredAt "adm" .adminLvl).toMCPTool = p.2.toMCPTool) ∧
    ((Registry.register regPerm
        { name := "fresh", description := "d", parameters := .raw "s",
          handler := okHandler }).1).lookup "fresh" =
      some { name := "fresh", description := "d", parameters := .raw "s",
             handler := okHandler, permissionLevel := .publicLvl, category := none,
             tags := [], enabled := (none : Option Bool).getD true } :=
  getToolsByPermission_spec regPerm .adminLvl (mkStoredAt "adm" .adminLvl).toMCPTool
    { name := "fresh", description := "d", parameters := .raw "s", handler := okHandler }
    rfl rfl

/-! ## C4: non-streaming error classification -/

/-- C4: in non-streaming execution, a handler that throws a
`ToolExecutionError` yields a successful response whose content is the error
payload and whose metadata has `isError: true`, while a handler that throws an
unclassified exception yields a protocol-level failure: the error propagates
out of `executeTool` instead of being returned as a result. -/
theorem nonstreaming_error_classification (reg₁ reg₂ : Registry) (n₁ n₂ : String)
    (h₁ h₂ : Handler) (p₁ p₂ : Params) (c : Content) (msg : String)
    (hl₁ : Registry.getToolHandler reg₁ n₁ = some h₁)
    (he₁ : h₁.callUnary p₁ = .error (.toolExecution c))
    (hl₂ : Registry.getToolHandler reg₂ n₂ = some h₂)
    (he₂ : h₂.callUnary p₂ = .error (.generic msg)) :
    (executeTool reg₁ n₁ p₁ false).outcome =
      .unaryResult (.ok { content := c, metadata := { isError := some true } }) ∧
    (executeTool reg₂ n₂ p₂ false).outcome = .unaryResult (.error msg) := by
  constructor
  · simp [executeTool, hl₁, runNonStreaming, he₁]
  · simp [executeTool, hl₂, runNonStreaming, he₂]

/-- Witness for C4 at concrete registries: one handler throwing a
`ToolExecutionError`, one throwing a plain error. -/
theorem nonstreaming_error_classification_witness :
    (executeTool regBizFail "fail_biz" [] false).outcome =
      .unaryResult (.ok { content := .raw "task not found",
                          metadata := { isError := some true } }) ∧
    (executeTool regGenFail "fail_gen" [] false).outcome = .unaryResult (.error "boom") :=
  nonstreaming_error_classification regBizFail regGenFail "fail_biz" "fail_gen"
    bizFailHandler genFailHandler [] [] (.raw "task not found") "boom" rfl rfl rfl rfl

/-! ## C8: streaming request on a non-stream-aware handler -/

/-- C8: for a streaming invocation of a handler that is not streaming-capable
(declared arity at most one), the dispatcher awaits the handler's single
result and the sink observes exactly one envelope wrapping that result with
`partial: false, final: true` over the handler's own metadata, after which the
stream is terminated: a response stream of length one. -/
theorem streaming_degrade_to_unary (reg : Registry) (name : String) (p : Params)
    (h : Handler) (r : ToolResponse)
    (hl : Registry.getToolHandler reg name = some h)
    (ha : h.arity ≤ 1) (hr : h.callUnary p = .ok r) :
    (executeTool reg name p true).outcome =
      .streamed
        { written := [.result r.content
            { r.metadata with partialFlag := some false, finalFlag := some true }]
          closed := true }
        streamingPlaceholder ∧
    (executeTool reg name p true).handlerCalls = 1 := by
  have hna : ¬ h.arity > 1 := by omega
  constructor
  · simp [executeTool, hl, runStreaming, hna, hr, Shim.enqueue, Shim.terminate]
  · simp [executeTool, hl]

/-- Witness for C8: the unary `echo_text` tool invoked in streaming mode with
schema-conforming parameters. -/
theorem streaming_degrade_to_unary_witness :
    (executeTool regEchoText "echo_text" [("text", .str "hi")] true).outcome =
      .streamed
        { written := [.result (.raw "hi")
            { ({} : Meta) with partialFlag := some false, finalFlag := some true }]
          closed := true }
        streamingPlaceholder ∧
    (executeTool regEchoText "echo_text" [("text", .str "hi")] true).handlerCalls = 1 :=
  streaming_degrade_to_unary regEchoText "echo_text" [("text", .str "hi")]
    echoTextHandler { content := .raw "hi" } rfl (by decide) rfl

/-! ## C3: what the dispatcher does when a stream-aware handler ends -/

/-- C3 counterexample: a streaming-capable handler (declared arity two) that
returns normally, without ever completing its stream, leaves the sink with no
envelope at all and the stream unterminated: the dispatcher does not await the
handler call and synthesizes no terminal envelope from its outcome. -/
theorem streaming_fire_and_forget_counterexample :
    (executeTool regQuiet "quiet" [] true).outcome =
      .streamed { written := [], closed := false } streamingPlaceholder ∧
    (streamedSinkOf (executeTool regQuiet "quiet" [] true)).map sinkHasTerminal =
      some false :=
  ⟨rfl, rfl⟩

/-- C3 amended: the stream-aware handler call is fire-and-forget. Only a
synchronous throw during kickoff is caught, and the dispatcher then closes
the shim with a generic internal-error envelope; when the handler returns
normally or rejects asynchronously, the sink is left exactly as the handler's
own shim calls left it, with no terminal envelope synthesized from the
handler's outcome. -/
theorem streaming_kickoff_spec (reg : Registry) (name : String) (p : Params)
    (h : Handler) (ops : List ShimOp) (ending : Ending)
    (hl : Registry.getToolHandler reg name = some h)
    (ha : h.arity > 1) (hops : h.callWithShim p = (ops, ending)) :
    (executeTool reg name p true).outcome =
      .streamed
        (match ending with
         | .syncThrow => ((runShimOps {} ops).error internalInitMsg).sink
         | .returns => (runShimOps {} ops).sink
         | .asyncReject => (runShimOps {} ops).sink)
        streamingPlaceholder := by
  cases ending with
  | returns => simp [executeTool, hl, runStreaming, ha, hops]
  | syncThrow => simp [executeTool, hl, runStreaming, ha, hops]
  | asyncReject => simp [executeTool, hl, runStreaming, ha, hops]

/-- Witness for the amended C3: a stream-aware handler that enqueues one
partial envelope and then throws synchronously; the dispatcher appends the
generic internal error and closes the stream. -/
theorem streaming_kickoff_spec_witness :
    (executeTool regThrowStream "throwy" [] true).outcome =
      .streamed
        ((runShimOps {}
            [ShimOp.enqueue (.result (.raw "p1") { partialFlag := some true })]).error
          internalInitMsg).sink
        streamingPlaceholder :=
  streaming_kickoff_spec regThrowStream "throwy" [] throwingStreamHandler
    [ShimOp.enqueue (.result (.raw "p1") { partialFlag := some true })] .syncThrow
    rfl (by decide) rfl

/-! ## C2: schema-violating parameters and the handler call -/

/-- C2 counterexample: the dispatcher performs no parameter-schema validation.
For the `echo_text` tool, whose declared schema requires a string `text`
field, invoking with a number violates the schema, yet the handler is called
(call counter one, not zero) and the outcome is a successful envelope with
`isError: true` carrying the validation-failure content — not a
protocol-level InvalidParameters error. -/
theorem dispatch_no_validation_counterexample :
    echoSchemaAccepts badEchoParams = false ∧
    (executeTool regEchoText "echo_text" badEchoParams false).handlerCalls = 1 ∧
    (executeTool regEchoText "echo_text" badEchoParams false).outcome =
      .unaryResult (.ok { content := zodFailureContent "echo_text" [("text", "Required string")],
                          metadata := { isError := some true } }) :=
  ⟨rfl, rfl, rfl⟩

/-- C2 amended: the dispatcher validates nothing itself — whenever lookup
succeeds the handler is invoked exactly once, whatever the parameters and
mode; a schema violation surfaces only through the handler, and when the
handler throws a ZodError the non-streaming dispatcher returns a successful
envelope with `isError: true` describing the validation failure, not a
protocol-level error. -/
theorem dispatch_always_calls_handler (reg : Registry) (name : String) (p : Params)
    (streaming : Bool) (h : Handler) (details : List (String × String))
    (hl : Registry.getToolHandler reg name = some h)
    (hz : h.callUnary p = .error (.zod details)) :
    (executeTool reg name p streaming).handlerCalls = 1 ∧
    (executeTool reg name p false).outcome =
      .unaryResult (.ok { content := zodFailureContent name details,
                          metadata := { isError := some true } }) := by
  constructor
  · cases streaming <;> simp [executeTool, hl]
  · simp [executeTool, hl, runNonStreaming, hz]

/-- Witness for the amended C2, on the `echo_text` fixture with a
schema-violating numeric `text` parameter. -/
theorem dispatch_always_calls_handler_witness :
    (executeTool regEchoText "echo_text" badEchoParams true).handlerCalls = 1 ∧
    (executeTool regEchoText "echo_text" badEchoParams false).outcome =
      .unaryResult (.ok { content := zodFailureContent "echo_text" [("text", "Required string")],
                          metadata := { isError := some true } }) :=
  dispatch_always_calls_handler regEchoText "echo_text" badEchoParams true
    echoTextHandler [("text", "Required string")] rfl rfl
